import Mathlib

/-!
Shallow embedding of the TinyG arc planner (`src/firmware/tinyg/plan_arc.c`).

Floating-point values are modelled as real numbers.  IEEE special values are
modelled explicitly where the source depends on them: `sqrt` of a negative
argument and `0/0` produce NaN in C, which the source detects with `isnan`;
in the embedding those paths are represented by `Option`/`Except` error
results.  The helper `fp_ZERO` of the source (a small-epsilon comparison) is
modelled as exact equality with zero, and `fp_NOT_ZERO` as disequality.

External collaborators of the module (the canonical machine's model mutators,
the soft-limit check, the downstream planner queue and the unit conversion)
are not part of `plan_arc.c`; they are modelled as an explicit environment
record `Env` of functions, so every theorem below holds for an arbitrary
environment unless it instantiates one.
-/

open Real

/-- Status codes returned by the arc planner (the subset of `stat_t` that
`plan_arc.c` produces, plus the soft-limit code its delegate can produce). -/
inductive Stat where
  | ok
  | eagain
  | noop
  | feedRateError
  | arcSpecificationError
  | floatingPointError
  | minimumLengthMoveError
  | softLimitExceeded
  deriving DecidableEq, Repr

/-- Run state of the arc singleton: `MOVE_STATE_OFF` or `MOVE_STATE_RUN`. -/
inductive MoveState where
  | off
  | run
  deriving DecidableEq, Repr

/-- Motion mode of an arc command: `MOTION_MODE_CW_ARC` or
`MOTION_MODE_CCW_ARC`. -/
inductive MotionMode where
  | cwArc
  | ccwArc
  deriving DecidableEq, Repr

/-- Plane selection `gm.select_plane`: `CANON_PLANE_XY` (G17),
`CANON_PLANE_XZ` (G18), `CANON_PLANE_YZ` (G19), or any other value
(in which case the source's if-chain leaves the plane axes unchanged). -/
inductive PlaneSel where
  | xy
  | xz
  | yz
  | other
  deriving DecidableEq, Repr

/-- The fields of `GCodeState_t` that `plan_arc.c` reads or writes.
Axes are indexed `0..5` for `AXIS_X, AXIS_Y, AXIS_Z, AXIS_A, AXIS_B,
AXIS_C`. -/
structure GCodeState where
  target : Fin 6 → ℝ
  work_offset : Fin 6 → ℝ
  feed_rate : ℝ
  inverse_feed_rate_mode : Bool
  motion_mode : MotionMode
  select_plane : PlaneSel
  move_time : ℝ

/-- The arc planner singleton `arc_t arc`.  `offset` is the 3-entry array
`arc.offset[3]`, indexed by the plane-axis numbers (always `0..2`).
`segment_count` is the `int32_t` countdown (32-bit wraparound is not
modelled; the source only stores values derived from `floor(...) ≥ 1`).
The source file refers to the session radius both as `arc.radius` and as
`arc.arc_radius` (the struct declaration lives in a header outside this
repository snapshot); both are modelled by the single field `radius`, which
is the radius stored by `cm_arc_feed`. -/
structure ArcState where
  run_state : MoveState
  position : Fin 6 → ℝ
  offset : Fin 3 → ℝ
  radius : ℝ
  theta : ℝ
  angular_travel : ℝ
  linear_travel : ℝ
  length : ℝ
  time : ℝ
  segments : ℝ
  segment_count : ℤ
  segment_theta : ℝ
  segment_linear_travel : ℝ
  center_0 : ℝ
  center_1 : ℝ
  plane_axis_0 : Fin 3
  plane_axis_1 : Fin 3
  plane_axis_2 : Fin 3
  gm : GCodeState

/-- The global state read and written by `plan_arc.c`: the live Gcode model
`gm`, the fields of the extended model `gmx` that the module uses, and the
arc singleton. -/
structure Machine where
  gm : GCodeState
  gmx_position : Fin 6 → ℝ
  gmx_inverse_feed_rate : ℝ
  arc : ArcState

/-- Configuration values read by the module: `cm.chordal_tolerance`,
`cm.arc_segment_len`, the constants `MICROSECONDS_PER_MINUTE` and
`MIN_ARC_SEGMENT_USEC`, the per-axis maximum feed rates
`cm.a[axis].feedrate_max`, and the planner constant
`PLANNER_BUFFER_HEADROOM`. -/
structure Config where
  chordal_tolerance : ℝ
  arc_segment_len : ℝ
  microseconds_per_minute : ℝ
  min_arc_segment_usec : ℝ
  feedrate_max : Fin 6 → ℝ
  planner_buffer_headroom : ℕ

/-- Modelled from the spec: the external collaborators called by
`plan_arc.c` but defined outside it.  `set_model_target` is
`cm_set_model_target` (resolves the command's target words into `gm.target`);
`set_work_offsets` is `cm_set_work_offsets` (recomputes `gm.work_offset`);
`to_mm` is `_to_millimeters` (unit conversion to canonical millimeters);
`test_soft_limits` is `cm_test_soft_limits` (axis-travel-limit check on a
target vector); `cond_set_model_position` is
`cm_conditional_set_model_position` (commits the resolved end position to the
shared model position); `buffers_available` is the value returned by
`mp_get_planner_buffers_available`.  `cm_cycle_start` only touches machine
cycle state outside this module's state and is not modelled. -/
structure Env where
  set_model_target : GCodeState → (Fin 6 → ℝ) → (Fin 6 → ℝ) → (Fin 6 → ℝ)
  set_work_offsets : GCodeState → (Fin 6 → ℝ)
  to_mm : ℝ → ℝ
  test_soft_limits : (Fin 6 → ℝ) → Stat
  cond_set_model_position : (Fin 6 → ℝ) → (Fin 6 → ℝ) → (Fin 6 → ℝ)
  buffers_available : ℕ

/-- Inclusion of the plane-axis index range `0..2` into the axis range
`0..5` (in the source both are plain integers). -/
def ax (p : Fin 3) : Fin 6 :=
  ⟨p.val, by omega⟩

/-- Embedding of `_get_theta` (`plan_arc.c`, lines 403-416): the angle in
radians of deviance from the positive y axis, computed as
`theta = atan(x/fabs(y))` followed by a quadrant correction on the sign of
`y`.  IEEE behaviour at `y = 0` is modelled explicitly: `x/0` is `±inf` for
`x ≠ 0` (so `atan` gives `±π/2` and the quadrant correction still applies),
and `0/0` is NaN, which propagates through every branch and is returned;
`none` models that NaN result. -/
noncomputable def _get_theta (x y : ℝ) : Option ℝ :=
  if y = 0 ∧ x = 0 then none
  else
    let θ := if y = 0 then (if 0 < x then π / 2 else -(π / 2)) else Real.arctan (x / |y|)
    if 0 < y then some θ
    else if 0 < θ then some (π - θ) else some (-π - θ)

/-- Embedding of `_compute_arc_offsets_from_radius` (`plan_arc.c`, lines
327-356).  It reads the change in position `x, y` from the live model
(`gm.target`, `gmx.position`), computes
`h_x2_div_d = -sqrt(4*square(radius) - (square(x) - square(y))) / hypot(x,y)`
exactly as the source line 334 writes it, returns
`STAT_FLOATING_POINT_ERROR` when that value is NaN (i.e. when the
square-root argument is negative) without writing any offset, and otherwise
negates `h_x2_div_d` for a counterclockwise arc, negates it again for a
negative input radius, and stores the three offsets.  (When `x = y = 0` with
a nonzero radius the C expression divides by zero and produces `±inf`, not
NaN; that corner is outside every claim and is represented by the Lean
division-by-zero junk value.) -/
noncomputable def _compute_arc_offsets_from_radius (m : Machine) : Except Stat Machine :=
  let x := m.gm.target (ax m.arc.plane_axis_0) - m.gmx_position (ax m.arc.plane_axis_0)
  let y := m.gm.target (ax m.arc.plane_axis_1) - m.gmx_position (ax m.arc.plane_axis_1)
  let disc := 4 * m.arc.radius ^ 2 - (x ^ 2 - y ^ 2)
  if disc < 0 then .error .floatingPointError
  else
    let h0 := -Real.sqrt disc / Real.sqrt (x ^ 2 + y ^ 2)
    let h1 := if m.gm.motion_mode = .ccwArc then -h0 else h0
    let hh := if m.arc.radius < 0 then -h1 else h1
    let off1 := Function.update m.arc.offset m.arc.plane_axis_0 ((x - y * hh) / 2)
    let off2 := Function.update off1 m.arc.plane_axis_1 ((y + x * hh) / 2)
    let off3 := Function.update off2 m.arc.plane_axis_2 0
    .ok { m with arc := { m.arc with offset := off3 } }

/-- Embedding of the angular-travel normalization of `_compute_arc`
(`plan_arc.c`, lines 204-220): make the angle difference nominally clockwise
by adding a full turn when `theta_end < theta`, then invert for a
counterclockwise arc, interpreting an exactly-zero travel as a full
circle. -/
noncomputable def arc_angular_travel (theta theta_end0 : ℝ) (ccw : Bool) : ℝ :=
  let theta_end := if theta_end0 < theta then theta_end0 + 2 * π else theta_end0
  let travel := theta_end - theta
  if travel = 0 then
    if ccw then travel - 2 * π else 2 * π
  else
    if ccw then travel - 2 * π else travel

/-- Embedding of `_get_arc_time` (`plan_arc.c`, lines 371-394): the naive
rate-limited time for the move, starting from either the inverse feed rate
or distance over feed rate, then raised to the slowest per-axis bound. -/
noncomputable def _get_arc_time (cfg : Config) (m : Machine)
    (linear_travel angular_travel radius : ℝ) : ℝ :=
  let planar_travel := |angular_travel * radius|
  let t0 := if m.gm.inverse_feed_rate_mode then m.gmx_inverse_feed_rate
            else Real.sqrt (planar_travel ^ 2 + linear_travel ^ 2) / m.gm.feed_rate
  let t1 := if planar_travel / cfg.feedrate_max (ax m.arc.plane_axis_0) > t0
            then planar_travel / cfg.feedrate_max (ax m.arc.plane_axis_0) else t0
  let t2 := if planar_travel / cfg.feedrate_max (ax m.arc.plane_axis_1) > t1
            then planar_travel / cfg.feedrate_max (ax m.arc.plane_axis_1) else t1
  if |linear_travel / cfg.feedrate_max (ax m.arc.plane_axis_2)| > t2
  then |linear_travel / cfg.feedrate_max (ax m.arc.plane_axis_2)| else t2

/-- Embedding of `_compute_arc` (`plan_arc.c`, lines 186-250).  Behaviour and
write order follow the source: the radius-mode offset conversion runs first
when the session radius is nonzero; the start and end angles are computed
with `_get_theta` and a NaN result returns `STAT_ARC_SPECIFICATION_ERROR`
(the source stores the NaN in `arc.theta` before testing it; a NaN-valued
field is not representable here, so on the first-angle error the field is
left unchanged); the angular travel is normalized; radius, linear travel and
length are recomputed and committed, and an arc shorter than
`cm.arc_segment_len` returns `STAT_MINIMUM_LENGTH_MOVE_ERROR`; otherwise the
time, segment count (floored minimum of the three constraints, at least 1),
per-segment deltas and center are derived and the helix-axis target is
initialized to the current position. -/
noncomputable def _compute_arc (cfg : Config) (m : Machine) : Stat × Machine :=
  match (if m.arc.radius ≠ 0 then _compute_arc_offsets_from_radius m else .ok m) with
  | .error st => (st, m)
  | .ok m1 =>
    match _get_theta (-(m1.arc.offset m1.arc.plane_axis_0)) (-(m1.arc.offset m1.arc.plane_axis_1)) with
    | none => (.arcSpecificationError, m1)
    | some θ =>
      let m2 := { m1 with arc := { m1.arc with theta := θ } }
      match _get_theta
          (m2.arc.gm.target (ax m2.arc.plane_axis_0) - m2.arc.offset m2.arc.plane_axis_0 -
            m2.arc.position (ax m2.arc.plane_axis_0))
          (m2.arc.gm.target (ax m2.arc.plane_axis_1) - m2.arc.offset m2.arc.plane_axis_1 -
            m2.arc.position (ax m2.arc.plane_axis_1)) with
      | none => (.arcSpecificationError, m2)
      | some theta_end =>
        let travel := arc_angular_travel θ theta_end (m2.gm.motion_mode = .ccwArc)
        let radius := Real.sqrt ((m2.arc.offset m2.arc.plane_axis_0) ^ 2 +
                                 (m2.arc.offset m2.arc.plane_axis_1) ^ 2)
        let lin := m2.arc.gm.target (ax m2.arc.plane_axis_2) - m2.arc.position (ax m2.arc.plane_axis_2)
        let len := Real.sqrt ((travel * radius) ^ 2 + |lin| ^ 2)
        let m3 := { m2 with arc := { m2.arc with
                      angular_travel := travel, radius := radius,
                      linear_travel := lin, length := len } }
        if len < cfg.arc_segment_len then (.minimumLengthMoveError, m3)
        else
          let time := _get_arc_time cfg m3 lin travel radius
          let seg_chordal := len / Real.sqrt (4 * cfg.chordal_tolerance *
                               (2 * radius - cfg.chordal_tolerance))
          let seg_distance := len / cfg.arc_segment_len
          let seg_time := time * cfg.microseconds_per_minute / cfg.min_arc_segment_usec
          let segments : ℝ := max (↑⌊min seg_chordal (min seg_distance seg_time)⌋ : ℝ) 1
          (.ok, { m3 with arc := { m3.arc with
                    time := time,
                    segments := segments,
                    segment_count := ⌊segments⌋,
                    segment_theta := travel / segments,
                    segment_linear_travel := lin / segments,
                    center_0 := m3.arc.position (ax m3.arc.plane_axis_0) - Real.sin θ * radius,
                    center_1 := m3.arc.position (ax m3.arc.plane_axis_1) - Real.cos θ * radius,
                    gm := { m3.arc.gm with
                              move_time := time / segments,
                              target := Function.update m3.arc.gm.target (ax m3.arc.plane_axis_2)
                                          (m3.arc.position (ax m3.arc.plane_axis_2)) } } })

/-- Embedding of `cm_arc_feed` (`plan_arc.c`, lines 73-130), the canonical
machine entry point for an arc command.  It traps a zero feed rate outside
inverse-feed-rate mode, then the no-motion case (all of `i, j, k, radius`
zero and the sum of all six axis flags zero), then captures the command into
the model and the arc singleton, selects the plane axes, computes the arc,
tests soft limits, and on success arms the session and conditionally commits
the model position.  (`cm_cycle_start` touches only state outside this
model.)  `arc_feed_body` is its tail (lines 123-129) after the command has
been captured and the plane selected: compute the arc, test soft limits, and
on success arm the session and conditionally commit the end position; any
non-ok status is returned as is with the state mutated so far. -/
noncomputable def arc_feed_body (env : Env) (cfg : Config) (m4 : Machine) :
    Stat × Machine :=
  let res := _compute_arc cfg m4
  if res.1 = .ok then
    let st2 := env.test_soft_limits res.2.arc.gm.target
    if st2 = .ok then
      let m6 := { res.2 with arc := { res.2.arc with run_state := .run } }
      (.ok, { m6 with gmx_position := env.cond_set_model_position m6.gm.target m6.gmx_position })
    else (st2, res.2)
  else res

/-- Embedding of the entry point `cm_arc_feed` itself: the two early traps,
the capture of the command into the model and the arc singleton, the plane
selection, then `arc_feed_body`. -/
noncomputable def cm_arc_feed (env : Env) (cfg : Config) (m : Machine)
    (target flags : Fin 6 → ℝ) (i j k radius : ℝ) (motion_mode : MotionMode) :
    Stat × Machine :=
  if m.gm.inverse_feed_rate_mode = false ∧ m.gm.feed_rate = 0 then
    (.feedRateError, m)
  else if i = 0 ∧ j = 0 ∧ k = 0 ∧ radius = 0 ∧
          flags 0 + flags 1 + flags 2 + flags 3 + flags 4 + flags 5 = 0 then
    (.ok, m)
  else
    let gm1 := { m.gm with target := env.set_model_target m.gm target flags }
    let gm2 := { gm1 with motion_mode := motion_mode }
    let gm3 := { gm2 with work_offset := env.set_work_offsets gm2 }
    let arc1 := { m.arc with
                    gm := gm3,
                    position := m.gmx_position,
                    radius := env.to_mm radius,
                    offset := fun n => if n = 0 then env.to_mm i
                                       else if n = 1 then env.to_mm j
                                       else env.to_mm k }
    let arc2 := match gm3.select_plane with
                | .xy => { arc1 with plane_axis_0 := 0, plane_axis_1 := 1, plane_axis_2 := 2 }
                | .xz => { arc1 with plane_axis_0 := 0, plane_axis_1 := 2, plane_axis_2 := 1 }
                | .yz => { arc1 with plane_axis_0 := 1, plane_axis_1 := 2, plane_axis_2 := 0 }
                | .other => arc1
    arc_feed_body env cfg { m with gm := gm3, arc := arc2 }

/-- The target written into `arc.gm.target` by one `cm_arc_callback` step
(`plan_arc.c`, lines 146-149): advance theta by the per-segment delta, set
the two plane axes to `center + (sin(theta), cos(theta)) * radius`, and
advance the helix axis by the per-segment linear travel. -/
noncomputable def next_target (m : Machine) : Fin 6 → ℝ :=
  let θ := m.arc.theta + m.arc.segment_theta
  let t1 := Function.update m.arc.gm.target (ax m.arc.plane_axis_0)
              (m.arc.center_0 + Real.sin θ * m.arc.radius)
  let t2 := Function.update t1 (ax m.arc.plane_axis_1)
              (m.arc.center_1 + Real.cos θ * m.arc.radius)
  Function.update t2 (ax m.arc.plane_axis_2)
    (t2 (ax m.arc.plane_axis_2) + m.arc.segment_linear_travel)

/-- Embedding of `cm_arc_callback` (`plan_arc.c`, lines 141-156), the main
loop step function.  The third result component is the segment submitted to
the downstream line planner by `mp_aline(&arc.gm)` during this invocation,
or `none` when nothing was submitted. -/
noncomputable def cm_arc_callback (cfg : Config) (env : Env) (m : Machine) :
    Stat × Machine × Option GCodeState :=
  if m.arc.run_state = .off then (.noop, m, none)
  else if env.buffers_available < cfg.planner_buffer_headroom then (.eagain, m, none)
  else
    let gmSeg := { m.arc.gm with target := next_target m }
    let sc := m.arc.segment_count - 1
    let arcStep := { m.arc with
                       gm := gmSeg,
                       theta := m.arc.theta + m.arc.segment_theta,
                       position := next_target m,
                       segment_count := sc }
    if sc > 0 then (.eagain, { m with arc := arcStep }, some gmSeg)
    else (.ok, { m with arc := { arcStep with run_state := .off } }, some gmSeg)

/-- Embedding of `cm_abort_arc` (`plan_arc.c`, lines 164-167): stop arc
movement without maintaining position, by forcing the run state off. -/
def cm_abort_arc (m : Machine) : Machine :=
  { m with arc := { m.arc with run_state := .off } }

/-! Concrete sample states used by the closed evaluation theorems below. -/

/-- A Gcode model snapshot in inverse-feed-rate mode, clockwise motion, XY
plane, with all numeric fields zero. -/
def gm0 : GCodeState :=
  { target := fun _ => 0, work_offset := fun _ => 0, feed_rate := 0,
    inverse_feed_rate_mode := true, motion_mode := .cwArc, select_plane := .xy,
    move_time := 0 }

/-- An idle arc singleton with all numeric fields zero and XY plane axes. -/
def arc0 : ArcState :=
  { run_state := .off, position := fun _ => 0, offset := fun _ => 0, radius := 0,
    theta := 0, angular_travel := 0, linear_travel := 0, length := 0, time := 0,
    segments := 0, segment_count := 0, segment_theta := 0,
    segment_linear_travel := 0, center_0 := 0, center_1 := 0,
    plane_axis_0 := 0, plane_axis_1 := 1, plane_axis_2 := 2, gm := gm0 }

/-- A machine in the idle state `gm0`/`arc0`, with unit inverse feed rate. -/
def m0 : Machine :=
  { gm := gm0, gmx_position := fun _ => 0, gmx_inverse_feed_rate := 1, arc := arc0 }

/-- A machine whose Gcode model has a zero feed rate outside
inverse-feed-rate mode. -/
def mFeed0 : Machine :=
  { m0 with gm := { gm0 with inverse_feed_rate_mode := false } }

/-- A configuration with unit tolerances, rates and thresholds. -/
def cfg0 : Config :=
  { chordal_tolerance := 1, arc_segment_len := 1, microseconds_per_minute := 1,
    min_arc_segment_usec := 1, feedrate_max := fun _ => 1,
    planner_buffer_headroom := 1 }

/-- An environment whose external collaborators act trivially: target words
pass through, work offsets are zero, units are already millimeters, soft
limits always pass, the end position commit copies the target, and five
planner buffers are available. -/
def env0 : Env :=
  { set_model_target := fun _ t _ => t, set_work_offsets := fun _ => fun _ => 0,
    to_mm := fun v => v, test_soft_limits := fun _ => .ok,
    cond_set_model_position := fun t _ => t, buffers_available := 5 }

/-- The inner arctangent `atan(x/fabs(y))` of `_get_theta`, with the IEEE
conventions at `y = 0` spelled out (`atan(±inf) = ±π/2`). -/
noncomputable def raw_theta (x y : ℝ) : ℝ :=
  if y = 0 then (if 0 < x then π / 2 else -(π / 2)) else Real.arctan (x / |y|)

/-- Target vector `(0, 4, 0, 0, 0, 0)` for a radius-mode conversion whose
chord (length 4 from the origin) is longer than twice the requested radius
1, clockwise in the XY plane. -/
def tgtC1 : Fin 6 → ℝ :=
  fun n => if n = 1 then 4 else 0

/-- The machine for the C1 failing input, with `tgtC1` as the resolved
target both in the live model and in the captured arc context. -/
def mC1 : Machine :=
  { m0 with
      gm := { gm0 with target := tgtC1 },
      arc := { arc0 with radius := 1, gm := { gm0 with target := tgtC1 } } }

/-- A running arc session with one segment left and all numeric fields
zero. -/
def mRun : Machine :=
  { m0 with arc := { arc0 with run_state := .run, segment_count := 1 } }

/-- An environment reporting no available planner buffers. -/
def envLow : Env :=
  { env0 with buffers_available := 0 }

/-- Requested target `(2, 0, 0, 0, 0, 0)` for a concrete half-circle arc:
from the origin to `(2,0,0)` around the center `(1,0)`. -/
def tgt0 : Fin 6 → ℝ :=
  fun n => if n = 0 then 2 else 0

/-- Offsets `i = 1, j = 0, k = 0` for the concrete half-circle arc. -/
def offPrep : Fin 3 → ℝ :=
  fun n => if n = 0 then 1 else if n = 1 then 0 else 0

/-- The Gcode model after the concrete half-circle command is captured. -/
def gmPrep : GCodeState := { gm0 with target := tgt0 }

/-- The arc singleton after the concrete half-circle command is captured. -/
def arcPrep : ArcState := { arc0 with gm := gmPrep, offset := offPrep }

/-- The machine state on which `_compute_arc` runs for the concrete
half-circle command. -/
def mPrep : Machine := { m0 with gm := gmPrep, arc := arcPrep }

/-- Axis flags marking every axis word as present. -/
def flags1 : Fin 6 → ℝ := fun _ => 1

/-- C10: the abort operation modifies only the `run_state` field of the arc
session, setting it off; every other field of the session, the Gcode model
and the model position are unchanged, and aborting an already-idle session
changes nothing at all. -/
theorem cm_abort_arc_only_run_state (m : Machine) :
    ((cm_abort_arc m).arc.run_state = .off ∧
     (cm_abort_arc m).gm = m.gm ∧
     (cm_abort_arc m).gmx_position = m.gmx_position ∧
     (cm_abort_arc m).gmx_inverse_feed_rate = m.gmx_inverse_feed_rate ∧
     (cm_abort_arc m).arc.position = m.arc.position ∧
     (cm_abort_arc m).arc.offset = m.arc.offset ∧
     (cm_abort_arc m).arc.radius = m.arc.radius ∧
     (cm_abort_arc m).arc.theta = m.arc.theta ∧
     (cm_abort_arc m).arc.angular_travel = m.arc.angular_travel ∧
     (cm_abort_arc m).arc.linear_travel = m.arc.linear_travel ∧
     (cm_abort_arc m).arc.length = m.arc.length ∧
     (cm_abort_arc m).arc.time = m.arc.time ∧
     (cm_abort_arc m).arc.segments = m.arc.segments ∧
     (cm_abort_arc m).arc.segment_count = m.arc.segment_count ∧
     (cm_abort_arc m).arc.segment_theta = m.arc.segment_theta ∧
     (cm_abort_arc m).arc.segment_linear_travel = m.arc.segment_linear_travel ∧
     (cm_abort_arc m).arc.center_0 = m.arc.center_0 ∧
     (cm_abort_arc m).arc.center_1 = m.arc.center_1 ∧
     (cm_abort_arc m).arc.plane_axis_0 = m.arc.plane_axis_0 ∧
     (cm_abort_arc m).arc.plane_axis_1 = m.arc.plane_axis_1 ∧
     (cm_abort_arc m).arc.plane_axis_2 = m.arc.plane_axis_2 ∧
     (cm_abort_arc m).arc.gm = m.arc.gm) ∧
    (m.arc.run_state = .off → cm_abort_arc m = m) := by
  constructor
  · exact ⟨rfl, rfl, rfl, rfl, rfl, rfl, rfl, rfl, rfl, rfl, rfl, rfl, rfl,
      rfl, rfl, rfl, rfl, rfl, rfl, rfl, rfl, rfl⟩
  · intro h
    cases m with
    | mk gm gp gi arc =>
      cases arc with
      | mk rs p off r th tr lt len t sg sc sth slt c0 c1 p0 p1 p2 agm =>
        cases h
        rfl

/-- C10 witness: aborting the concrete idle machine `m0` is a no-op. -/
theorem cm_abort_arc_only_run_state_witness : cm_abort_arc m0 = m0 :=
  (cm_abort_arc_only_run_state m0).2 rfl

/-- C9: with a zero feed rate outside inverse-feed-rate mode, `cm_arc_feed`
returns the feed-rate error before any other processing, and the whole
machine state (in particular the idle arc session) is unchanged. -/
theorem cm_arc_feed_feedrate_error (env : Env) (cfg : Config) (m : Machine)
    (target flags : Fin 6 → ℝ) (i j k radius : ℝ) (mode : MotionMode)
    (h1 : m.gm.inverse_feed_rate_mode = false) (h2 : m.gm.feed_rate = 0) :
    cm_arc_feed env cfg m target flags i j k radius mode = (.feedRateError, m) := by
  unfold cm_arc_feed
  rw [if_pos ⟨h1, h2⟩]

/-- C9 witness: the zero-feed-rate machine `mFeed0` is rejected unchanged. -/
theorem cm_arc_feed_feedrate_error_witness :
    cm_arc_feed env0 cfg0 mFeed0 (fun _ => 0) (fun _ => 0) 0 0 0 0 .cwArc
      = (.feedRateError, mFeed0) :=
  cm_arc_feed_feedrate_error env0 cfg0 mFeed0 _ _ 0 0 0 0 .cwArc rfl rfl

/-- C8 counterexample: a command with `i = j = k = radius = 0` and all axis
flags zero is not returned as a success when the feed rate is zero outside
inverse-feed-rate mode — the source tests the feed rate first and returns
`STAT_GCODE_FEEDRATE_ERROR`. -/
theorem cm_arc_feed_no_motion_zero_feed :
    (cm_arc_feed env0 cfg0 mFeed0 (fun _ => 0) (fun _ => 0) 0 0 0 0 .cwArc).1
      = .feedRateError ∧ Stat.feedRateError ≠ .ok := by
  constructor
  · unfold cm_arc_feed
    rw [if_pos ⟨rfl, rfl⟩]
  · decide

/-- C8 (amended): provided the zero-feed-rate trap does not fire, a command
with `i`, `j`, `k` and the radius all zero and all axis flags zero returns
success with zero state change: the arc session (its `run_state` stays off)
and the shared machine state are returned exactly as given. -/
theorem cm_arc_feed_no_motion_noop (env : Env) (cfg : Config) (m : Machine)
    (target flags : Fin 6 → ℝ) (i j k radius : ℝ) (mode : MotionMode)
    (hfeed : ¬ (m.gm.inverse_feed_rate_mode = false ∧ m.gm.feed_rate = 0))
    (hi : i = 0) (hj : j = 0) (hk : k = 0) (hr : radius = 0)
    (hflags : ∀ a, flags a = 0) :
    cm_arc_feed env cfg m target flags i j k radius mode = (.ok, m) := by
  unfold cm_arc_feed
  rw [if_neg hfeed, if_pos ⟨hi, hj, hk, hr, by simp [hflags]⟩]

/-- C8 witness: on the concrete idle machine `m0` (inverse-feed-rate mode
active), an all-zero arc command is a successful no-op. -/
theorem cm_arc_feed_no_motion_noop_witness :
    cm_arc_feed env0 cfg0 m0 (fun _ => 0) (fun _ => 0) 0 0 0 0 .cwArc = (.ok, m0) :=
  cm_arc_feed_no_motion_noop env0 cfg0 m0 _ _ 0 0 0 0 .cwArc
    (by simp [m0, gm0]) rfl rfl rfl rfl (fun _ => rfl)

/-- C2: the angular-travel normalization first adds a full turn to
`theta_end` when it is below `theta`, takes the difference, replaces an
exactly-zero difference by `-2π` in counterclockwise mode and `+2π`
otherwise, and subtracts a full turn from a nonzero difference in
counterclockwise mode, leaving clockwise travel unchanged. -/
theorem arc_angular_travel_normalization (theta theta_end : ℝ) (ccw : Bool) :
    arc_angular_travel theta theta_end ccw =
      (let te := if theta_end < theta then theta_end + 2 * π else theta_end
       let travel := te - theta
       if travel = 0 then (if ccw then -(2 * π) else 2 * π)
       else if ccw then travel - 2 * π else travel) := by
  unfold arc_angular_travel
  split_ifs with h1 h2 h3 <;> try rfl
  all_goals simp_all

/-- Branch normal form of `_get_theta` in terms of `raw_theta`. -/
theorem get_theta_eq (x y : ℝ) :
    _get_theta x y =
      if y = 0 ∧ x = 0 then none
      else if 0 < y then some (raw_theta x y)
      else if 0 < raw_theta x y then some (π - raw_theta x y)
      else some (-π - raw_theta x y) := rfl

/-- C5 counterexample: at `(x, y) = (0, -1)` the signed-angle helper returns
exactly `-π`, which does not lie in the claimed half-open interval
`(-π, π]`. -/
theorem get_theta_attains_neg_pi :
    _get_theta 0 (-1) = some (-π) ∧ ¬ (-π < -π ∧ -π ≤ π) := by
  constructor
  · simp [_get_theta]
  · simp

/-- C5 (amended): the signed-angle helper returns `atan(x/|y|)` when
`y > 0`, `π - atan(x/|y|)` when `y ≤ 0` and that arctangent is positive, and
`-π - atan(x/|y|)` otherwise (reading `atan(x/|y|)` at `y = 0` with the IEEE
conventions `atan(±inf) = ±π/2`), and every result that is a number lies in
the closed-open interval `[-π, π)`. -/
theorem get_theta_cases_and_range (x y r : ℝ) (h : _get_theta x y = some r) :
    (r = if 0 < y then raw_theta x y
         else if 0 < raw_theta x y then π - raw_theta x y
         else -π - raw_theta x y) ∧
    -π ≤ r ∧ r < π := by
  rw [get_theta_eq] at h
  by_cases hz : y = 0 ∧ x = 0
  · rw [if_pos hz] at h
    exact absurd h (by simp)
  · rw [if_neg hz] at h
    have hb : -(π / 2) ≤ raw_theta x y ∧ raw_theta x y ≤ π / 2 := by
      unfold raw_theta
      split_ifs
      · constructor <;> linarith [Real.pi_pos]
      · constructor <;> linarith [Real.pi_pos]
      · exact ⟨(Real.neg_pi_div_two_lt_arctan _).le, (Real.arctan_lt_pi_div_two _).le⟩
    split_ifs at h with hy hpos
    all_goals rw [Option.some_inj] at h
    · subst h
      refine ⟨by rw [if_pos hy], by linarith [Real.pi_pos], by linarith [Real.pi_pos]⟩
    · subst h
      refine ⟨by rw [if_neg hy, if_pos hpos], by linarith [Real.pi_pos], by linarith⟩
    · subst h
      refine ⟨by rw [if_neg hy, if_neg hpos], by linarith, by linarith [Real.pi_pos]⟩

/-- C5 witness: the amended range theorem applied at the boundary input
`(0, -1)`, where the value `-π` is attained. -/
theorem get_theta_cases_and_range_witness :
    _get_theta 0 (-1) = some (-π) ∧ -π ≤ -π ∧ -π < π := by
  have he : _get_theta 0 (-1) = some (-π) := by simp [_get_theta]
  have h := get_theta_cases_and_range 0 (-1) (-π) he
  exact ⟨he, h.2.1, h.2.2⟩

/-- C1 (code bug): for the radius-mode command `mC1` the chord from current
position to target has length 4 while the requested radius is 1, so the
claimed (and source-documented) discriminant `4r² - x² - y²` is negative and
the conversion must fail with the floating-point error; but the source line
334 computes `4*square(r) - (square(x) - square(y))`, which is positive
here, so the code succeeds and writes offsets instead. -/
theorem compute_arc_offsets_from_radius_bug :
    (∃ m', _compute_arc_offsets_from_radius mC1 = .ok m') ∧
    4 * mC1.arc.radius ^ 2 -
      ((mC1.gm.target (ax mC1.arc.plane_axis_0) - mC1.gmx_position (ax mC1.arc.plane_axis_0)) ^ 2 +
       (mC1.gm.target (ax mC1.arc.plane_axis_1) - mC1.gmx_position (ax mC1.arc.plane_axis_1)) ^ 2)
      < 0 := by
  constructor
  · norm_num [_compute_arc_offsets_from_radius, mC1, arc0, gm0, m0, ax, tgtC1]
  · norm_num [mC1, arc0, gm0, m0, ax, tgtC1]

/-- C3: one step of the segment emitter.  When the session is idle it
returns the no-op status with nothing changed and nothing submitted; when
the available planner buffers are below the headroom threshold it returns
the try-again status with nothing changed and nothing submitted; otherwise
it submits exactly one segment — the captured motion context with its target
advanced to `next_target` (theta advanced by `segment_theta`, plane axes at
`center + (sin, cos) * radius`, helix axis advanced by
`segment_linear_travel`) — updates the position to that target, decrements
the segment count, and returns try-again while segments remain, otherwise
turns the session off and returns the done status. -/
theorem cm_arc_callback_step (cfg : Config) (env : Env) (m : Machine) :
    (m.arc.run_state = .off → cm_arc_callback cfg env m = (.noop, m, none)) ∧
    (m.arc.run_state ≠ .off → env.buffers_available < cfg.planner_buffer_headroom →
       cm_arc_callback cfg env m = (.eagain, m, none)) ∧
    (m.arc.run_state ≠ .off → ¬ env.buffers_available < cfg.planner_buffer_headroom →
       (cm_arc_callback cfg env m).2.2 = some { m.arc.gm with target := next_target m } ∧
       (cm_arc_callback cfg env m).2.1.arc.theta = m.arc.theta + m.arc.segment_theta ∧
       (cm_arc_callback cfg env m).2.1.arc.position = next_target m ∧
       (cm_arc_callback cfg env m).2.1.arc.segment_count = m.arc.segment_count - 1 ∧
       (m.arc.segment_count - 1 > 0 →
          (cm_arc_callback cfg env m).1 = .eagain ∧
          (cm_arc_callback cfg env m).2.1.arc.run_state = m.arc.run_state) ∧
       (¬ m.arc.segment_count - 1 > 0 →
          (cm_arc_callback cfg env m).1 = .ok ∧
          (cm_arc_callback cfg env m).2.1.arc.run_state = .off)) := by
  refine ⟨fun h1 => ?_, fun h1 h2 => ?_, fun h1 h2 => ?_⟩
  · unfold cm_arc_callback
    rw [if_pos h1]
  · unfold cm_arc_callback
    rw [if_neg h1, if_pos h2]
  · simp only [cm_arc_callback]
    rw [if_neg h1, if_neg h2]
    by_cases h3 : m.arc.segment_count - 1 > 0
    · rw [if_pos h3]
      exact ⟨rfl, rfl, rfl, rfl, fun _ => ⟨rfl, rfl⟩, fun hc => absurd h3 hc⟩
    · rw [if_neg h3]
      exact ⟨rfl, rfl, rfl, rfl, fun hc => absurd hc h3, fun _ => ⟨rfl, rfl⟩⟩

/-- C3 witness: the three emitter cases at concrete states — idle no-op on
`m0`, backpressure retry on `mRun` with an empty planner queue, and the
final segment of `mRun` completing the session. -/
theorem cm_arc_callback_step_witness :
    cm_arc_callback cfg0 env0 m0 = (.noop, m0, none) ∧
    cm_arc_callback cfg0 envLow mRun = (.eagain, mRun, none) ∧
    (cm_arc_callback cfg0 env0 mRun).1 = .ok ∧
    (cm_arc_callback cfg0 env0 mRun).2.1.arc.run_state = .off ∧
    (cm_arc_callback cfg0 env0 mRun).2.1.arc.segment_count = 0 := by
  have ha := (cm_arc_callback_step cfg0 env0 m0).1 rfl
  have hb := (cm_arc_callback_step cfg0 envLow mRun).2.1 (by decide) (by decide)
  have hc := (cm_arc_callback_step cfg0 env0 mRun).2.2 (by decide) (by decide)
  have hlast : ¬ mRun.arc.segment_count - 1 > 0 := by decide
  refine ⟨ha, hb, (hc.2.2.2.2.2 hlast).1, (hc.2.2.2.2.2 hlast).2, ?_⟩
  rw [hc.2.2.2.1]
  decide

/-- The radius-mode offset stage (offset conversion when the session radius
is nonzero, identity otherwise) never changes the run state. -/
theorem offsets_stage_run_state (m m1 : Machine)
    (h : (if m.arc.radius ≠ 0 then _compute_arc_offsets_from_radius m else .ok m) = .ok m1) :
    m1.arc.run_state = m.arc.run_state := by
  split_ifs at h
  · simp only [_compute_arc_offsets_from_radius] at h
    split_ifs at h
    all_goals (injection h with h; subst h; rfl)
  · injection h with h
    subst h
    rfl

/-- The radius-mode offset conversion can only fail with the floating-point
error status. -/
theorem offsets_error_status (m : Machine) (st : Stat)
    (h : _compute_arc_offsets_from_radius m = .error st) : st = .floatingPointError := by
  simp only [_compute_arc_offsets_from_radius] at h
  split_ifs at h
  injection h with h
  exact h.symm

/-- `_compute_arc` returns one of its four statuses and never changes the
run state. -/
theorem compute_arc_cases (cfg : Config) (m : Machine) (st : Stat) (m' : Machine)
    (h : _compute_arc cfg m = (st, m')) :
    (st = .ok ∨ st = .arcSpecificationError ∨ st = .floatingPointError ∨
     st = .minimumLengthMoveError) ∧
    m'.arc.run_state = m.arc.run_state := by
  simp only [_compute_arc] at h
  split at h
  · next st0 heq =>
      rw [Prod.mk.injEq] at h
      obtain ⟨rfl, rfl⟩ := h
      constructor
      · split_ifs at heq
        exact Or.inr (Or.inr (Or.inl (offsets_error_status m st0 heq)))
      · rfl
  · next m1 heq =>
      split at h
      · rw [Prod.mk.injEq] at h
        obtain ⟨rfl, rfl⟩ := h
        exact ⟨Or.inr (Or.inl rfl), offsets_stage_run_state m m1 heq⟩
      · next θ hθ =>
          split at h
          · rw [Prod.mk.injEq] at h
            obtain ⟨rfl, rfl⟩ := h
            exact ⟨Or.inr (Or.inl rfl), offsets_stage_run_state m m1 heq⟩
          · next θe hθe =>
              split_ifs at h
              · rw [Prod.mk.injEq] at h
                obtain ⟨rfl, rfl⟩ := h
                exact ⟨Or.inr (Or.inr (Or.inr rfl)), offsets_stage_run_state m m1 heq⟩
              · rw [Prod.mk.injEq] at h
                obtain ⟨rfl, rfl⟩ := h
                exact ⟨Or.inl rfl, offsets_stage_run_state m m1 heq⟩

/-- A non-ok result of the feed tail is one of the four prep errors or the
soft-limit error, and leaves the run state as it was. -/
theorem arc_feed_body_cases (env : Env) (cfg : Config) (m4 : Machine)
    (st : Stat) (m' : Machine)
    (hsoft : ∀ t, env.test_soft_limits t = .ok ∨ env.test_soft_limits t = .softLimitExceeded)
    (h : arc_feed_body env cfg m4 = (st, m')) (hne : st ≠ .ok) :
    (st = .arcSpecificationError ∨ st = .floatingPointError ∨
     st = .minimumLengthMoveError ∨ st = .softLimitExceeded) ∧
    m'.arc.run_state = m4.arc.run_state := by
  rcases hres : _compute_arc cfg m4 with ⟨st5, m5⟩
  obtain ⟨hst5, hrun5⟩ := compute_arc_cases cfg m4 st5 m5 hres
  simp only [arc_feed_body, hres] at h
  by_cases hok : st5 = .ok
  · rw [if_pos hok] at h
    rcases hsoft m5.arc.gm.target with hs | hs <;> rw [hs] at h
    · simp only [if_pos rfl] at h
      rw [Prod.mk.injEq] at h
      exact absurd h.1.symm hne
    · rw [if_neg (by simp)] at h
      rw [Prod.mk.injEq] at h
      obtain ⟨rfl, rfl⟩ := h
      exact ⟨Or.inr (Or.inr (Or.inr rfl)), hrun5⟩
  · rw [if_neg hok] at h
    rw [Prod.mk.injEq] at h
    obtain ⟨rfl, rfl⟩ := h
    rcases hst5 with h5 | h5 | h5 | h5
    · exact absurd h5 hne
    all_goals exact ⟨by simp [h5], hrun5⟩

/-- C7: every failing arc command returns its error status synchronously
(one of the five prep errors) and never arms the session: the run state is
exactly what it was before the call, so a failing command cannot leave the
session running. -/
theorem cm_arc_feed_error_not_armed (env : Env) (cfg : Config) (m : Machine)
    (target flags : Fin 6 → ℝ) (i j k radius : ℝ) (mode : MotionMode)
    (st : Stat) (m' : Machine)
    (hsoft : ∀ t, env.test_soft_limits t = .ok ∨ env.test_soft_limits t = .softLimitExceeded)
    (h : cm_arc_feed env cfg m target flags i j k radius mode = (st, m'))
    (hne : st ≠ .ok) :
    m'.arc.run_state = m.arc.run_state ∧
    (st = .feedRateError ∨ st = .arcSpecificationError ∨ st = .floatingPointError ∨
     st = .minimumLengthMoveError ∨ st = .softLimitExceeded) := by
  simp only [cm_arc_feed] at h
  split_ifs at h with h1 h2
  · rw [Prod.mk.injEq] at h
    obtain ⟨rfl, rfl⟩ := h
    exact ⟨rfl, Or.inl rfl⟩
  · rw [Prod.mk.injEq] at h
    obtain ⟨rfl, rfl⟩ := h
    exact absurd rfl hne
  · obtain ⟨hst, hrun⟩ := arc_feed_body_cases env cfg _ st m' hsoft h hne
    constructor
    · rw [hrun]
      rcases hsel : m.gm.select_plane <;> simp [hsel]
    · tauto

/-- On a successful `_compute_arc`, the stored segment fields satisfy the
segmentation equations: `segments` is the floored minimum of the three
constraint values clamped to at least 1, the per-segment deltas divide the
travels by `segments`, the countdown is the integer value of `segments`, and
`segments` is at least 1. -/
theorem compute_arc_ok_fields (cfg : Config) (m m' : Machine)
    (h : _compute_arc cfg m = (.ok, m')) :
    m'.arc.segments =
      max (↑⌊min (m'.arc.length /
              Real.sqrt (4 * cfg.chordal_tolerance * (2 * m'.arc.radius - cfg.chordal_tolerance)))
            (min (m'.arc.length / cfg.arc_segment_len)
                 (m'.arc.time * cfg.microseconds_per_minute / cfg.min_arc_segment_usec))⌋ : ℝ) 1 ∧
    m'.arc.segment_theta = m'.arc.angular_travel / m'.arc.segments ∧
    m'.arc.segment_linear_travel = m'.arc.linear_travel / m'.arc.segments ∧
    m'.arc.segment_count = ⌊m'.arc.segments⌋ ∧
    (1 : ℝ) ≤ m'.arc.segments := by
  simp only [_compute_arc] at h
  split at h
  · next st0 heq =>
      rw [Prod.mk.injEq] at h
      obtain ⟨rfl, rfl⟩ := h
      split_ifs at heq
      exact absurd (offsets_error_status _ _ heq) (by decide)
  · next m1 heq =>
      split at h
      · rw [Prod.mk.injEq] at h
        exact absurd h.1 (by decide)
      · next θ hθ =>
          split at h
          · rw [Prod.mk.injEq] at h
            exact absurd h.1 (by decide)
          · next θe hθe =>
              split_ifs at h
              · rw [Prod.mk.injEq] at h
                exact absurd h.1 (by decide)
              · rw [Prod.mk.injEq] at h
                obtain ⟨-, rfl⟩ := h
                exact ⟨rfl, rfl, rfl, rfl, le_max_right _ 1⟩

/-- A successful feed tail comes from a successful `_compute_arc`, and
arming changes only the session's run state: every other session field of
the armed machine is the field `_compute_arc` stored. -/
theorem arc_feed_body_ok (env : Env) (cfg : Config) (m4 m' : Machine)
    (h : arc_feed_body env cfg m4 = (.ok, m')) :
    ∃ m5, _compute_arc cfg m4 = (.ok, m5) ∧
      m'.arc.segments = m5.arc.segments ∧
      m'.arc.segment_theta = m5.arc.segment_theta ∧
      m'.arc.segment_linear_travel = m5.arc.segment_linear_travel ∧
      m'.arc.segment_count = m5.arc.segment_count ∧
      m'.arc.length = m5.arc.length ∧
      m'.arc.radius = m5.arc.radius ∧
      m'.arc.time = m5.arc.time ∧
      m'.arc.angular_travel = m5.arc.angular_travel ∧
      m'.arc.linear_travel = m5.arc.linear_travel := by
  rcases hres : _compute_arc cfg m4 with ⟨st5, m5⟩
  simp only [arc_feed_body, hres] at h
  by_cases hok : st5 = .ok
  · rw [if_pos hok] at h
    by_cases hs : env.test_soft_limits m5.arc.gm.target = .ok
    · rw [if_pos hs] at h
      rw [Prod.mk.injEq] at h
      obtain ⟨-, rfl⟩ := h
      subst hok
      exact ⟨m5, rfl, rfl, rfl, rfl, rfl, rfl, rfl, rfl, rfl, rfl⟩
    · rw [if_neg hs] at h
      rw [Prod.mk.injEq] at h
      exact absurd h.1 hs
  · rw [if_neg hok] at h
    rw [Prod.mk.injEq] at h
    exact absurd h.1 hok

/-- C4: on every successful arc preparation that arms the session, the
stored segment count is the floor of the minimum of the three constraint
values — chordal accuracy, minimum segment length and minimum segment time —
clamped to at least 1; the per-segment deltas divide the angular and linear
travel by that count; and consequently `segments ≥ 1` holds for the armed
session. -/
theorem cm_arc_feed_segments (env : Env) (cfg : Config) (m : Machine)
    (target flags : Fin 6 → ℝ) (i j k radius : ℝ) (mode : MotionMode) (m' : Machine)
    (h : cm_arc_feed env cfg m target flags i j k radius mode = (.ok, m'))
    (hoff : m.arc.run_state = .off) (hrun : m'.arc.run_state = .run) :
    m'.arc.segments =
      max (↑⌊min (m'.arc.length /
              Real.sqrt (4 * cfg.chordal_tolerance * (2 * m'.arc.radius - cfg.chordal_tolerance)))
            (min (m'.arc.length / cfg.arc_segment_len)
                 (m'.arc.time * cfg.microseconds_per_minute / cfg.min_arc_segment_usec))⌋ : ℝ) 1 ∧
    m'.arc.segment_theta = m'.arc.angular_travel / m'.arc.segments ∧
    m'.arc.segment_linear_travel = m'.arc.linear_travel / m'.arc.segments ∧
    m'.arc.segment_count = ⌊m'.arc.segments⌋ ∧
    (1 : ℝ) ≤ m'.arc.segments := by
  simp only [cm_arc_feed] at h
  split_ifs at h with h1 h2
  · rw [Prod.mk.injEq] at h
    exact absurd h.1 (by decide)
  · rw [Prod.mk.injEq] at h
    obtain ⟨-, rfl⟩ := h
    rw [hoff] at hrun
    exact absurd hrun (by decide)
  · obtain ⟨m5, hc, e1, e2, e3, e4, e5, e6, e7, e8, e9⟩ := arc_feed_body_ok env cfg _ m' h
    obtain ⟨f1, f2, f3, f4, f5⟩ := compute_arc_ok_fields cfg _ m5 hc
    rw [e1, e2, e3, e4, e5, e6, e7, e8, e9]
    exact ⟨f1, f2, f3, f4, f5⟩

/-- C6: arc preparation computes the path length as
`hypot(angular_travel * radius, |linear_travel|)` — stored in the session —
and fails with the minimum-length error exactly when that length is below
the configured minimum segment length; at or above the minimum the check
passes and preparation proceeds to a successful result.  The hypotheses
state that the earlier stages (radius-mode offsets and the two angle
computations) succeeded, which is what it takes to reach the check. -/
theorem compute_arc_length_check (cfg : Config) (m m1 : Machine) (θ θe : ℝ)
    (hoff : (if m.arc.radius ≠ 0 then _compute_arc_offsets_from_radius m else .ok m) = .ok m1)
    (hθ : _get_theta (-(m1.arc.offset m1.arc.plane_axis_0))
            (-(m1.arc.offset m1.arc.plane_axis_1)) = some θ)
    (hθe : _get_theta
        (m1.arc.gm.target (ax m1.arc.plane_axis_0) - m1.arc.offset m1.arc.plane_axis_0 -
          m1.arc.position (ax m1.arc.plane_axis_0))
        (m1.arc.gm.target (ax m1.arc.plane_axis_1) - m1.arc.offset m1.arc.plane_axis_1 -
          m1.arc.position (ax m1.arc.plane_axis_1)) = some θe) :
    ((_compute_arc cfg m).2.arc.length =
       Real.sqrt ((arc_angular_travel θ θe (m1.gm.motion_mode = .ccwArc) *
           Real.sqrt ((m1.arc.offset m1.arc.plane_axis_0) ^ 2 +
                      (m1.arc.offset m1.arc.plane_axis_1) ^ 2)) ^ 2 +
         |m1.arc.gm.target (ax m1.arc.plane_axis_2) -
            m1.arc.position (ax m1.arc.plane_axis_2)| ^ 2)) ∧
    ((_compute_arc cfg m).1 = .minimumLengthMoveError ↔
       Real.sqrt ((arc_angular_travel θ θe (m1.gm.motion_mode = .ccwArc) *
           Real.sqrt ((m1.arc.offset m1.arc.plane_axis_0) ^ 2 +
                      (m1.arc.offset m1.arc.plane_axis_1) ^ 2)) ^ 2 +
         |m1.arc.gm.target (ax m1.arc.plane_axis_2) -
            m1.arc.position (ax m1.arc.plane_axis_2)| ^ 2) < cfg.arc_segment_len) ∧
    (¬ Real.sqrt ((arc_angular_travel θ θe (m1.gm.motion_mode = .ccwArc) *
           Real.sqrt ((m1.arc.offset m1.arc.plane_axis_0) ^ 2 +
                      (m1.arc.offset m1.arc.plane_axis_1) ^ 2)) ^ 2 +
         |m1.arc.gm.target (ax m1.arc.plane_axis_2) -
            m1.arc.position (ax m1.arc.plane_axis_2)| ^ 2) < cfg.arc_segment_len →
       (_compute_arc cfg m).1 = .ok) := by
  simp only [_compute_arc, hoff, hθ, hθe]
  split_ifs with hlen
  · exact ⟨rfl, ⟨fun _ => hlen, fun _ => rfl⟩, fun hc => absurd hlen hc⟩
  · exact ⟨rfl, iff_of_false (by decide) hlen, fun _ => rfl⟩

/-- Feeding the concrete half-circle command reduces to the feed tail on
`mPrep`. -/
theorem feed_entry_reduction :
    cm_arc_feed env0 cfg0 m0 tgt0 flags1 1 0 0 0 .cwArc = arc_feed_body env0 cfg0 mPrep := by
  simp only [cm_arc_feed]
  rw [if_neg (by simp [m0, gm0]), if_neg (by norm_num)]
  rfl

/-- The concrete half-circle command is offset-specified, so the radius-mode
stage passes `mPrep` through. -/
theorem hoffPrep :
    (if mPrep.arc.radius ≠ 0 then _compute_arc_offsets_from_radius mPrep else .ok mPrep)
      = .ok mPrep := by
  rw [if_neg]
  simp [mPrep, arcPrep, arc0]

/-- Start angle of the concrete half-circle command: `-π/2`. -/
theorem hthPrep :
    _get_theta (-(mPrep.arc.offset mPrep.arc.plane_axis_0))
      (-(mPrep.arc.offset mPrep.arc.plane_axis_1)) = some (-(π/2)) := by
  have h : mPrep.arc.offset mPrep.arc.plane_axis_0 = 1 := by
    norm_num [mPrep, arcPrep, arc0, offPrep]
  have h2 : mPrep.arc.offset mPrep.arc.plane_axis_1 = 0 := by
    norm_num [mPrep, arcPrep, arc0, offPrep]
  rw [h, h2]
  unfold _get_theta
  split_ifs <;> norm_num at *
  rw [if_neg (not_lt.mpr (by positivity : (0:ℝ) ≤ π/2))]
  simp only [Option.some.injEq]
  ring

/-- End angle of the concrete half-circle command: `π/2`. -/
theorem hthePrep : _get_theta
    (mPrep.arc.gm.target (ax mPrep.arc.plane_axis_0) - mPrep.arc.offset mPrep.arc.plane_axis_0 -
      mPrep.arc.position (ax mPrep.arc.plane_axis_0))
    (mPrep.arc.gm.target (ax mPrep.arc.plane_axis_1) - mPrep.arc.offset mPrep.arc.plane_axis_1 -
      mPrep.arc.position (ax mPrep.arc.plane_axis_1)) = some (π/2) := by
  have h : mPrep.arc.gm.target (ax mPrep.arc.plane_axis_0) - mPrep.arc.offset mPrep.arc.plane_axis_0 -
      mPrep.arc.position (ax mPrep.arc.plane_axis_0) = 1 := by
    norm_num [mPrep, arcPrep, arc0, offPrep, gmPrep, tgt0, ax]
  have h2 : mPrep.arc.gm.target (ax mPrep.arc.plane_axis_1) - mPrep.arc.offset mPrep.arc.plane_axis_1 -
      mPrep.arc.position (ax mPrep.arc.plane_axis_1) = 0 := by
    norm_num [mPrep, arcPrep, arc0, offPrep, gmPrep, tgt0, ax]
  rw [h, h2]
  unfold _get_theta
  split_ifs <;> norm_num at *
  rw [if_pos Real.pi_pos]
  simp only [Option.some.injEq]
  ring

/-- Reduction of `_compute_arc` once the offset stage and both angle
computations are known to succeed: the remaining computation is the
normalization, length check and segmentation, written out explicitly. -/
theorem compute_arc_reduce (cfg : Config) (m m1 : Machine) (θ θe : ℝ)
    (hoff : (if m.arc.radius ≠ 0 then _compute_arc_offsets_from_radius m else .ok m) = .ok m1)
    (hθ : _get_theta (-(m1.arc.offset m1.arc.plane_axis_0))
            (-(m1.arc.offset m1.arc.plane_axis_1)) = some θ)
    (hθe : _get_theta
        (m1.arc.gm.target (ax m1.arc.plane_axis_0) - m1.arc.offset m1.arc.plane_axis_0 -
          m1.arc.position (ax m1.arc.plane_axis_0))
        (m1.arc.gm.target (ax m1.arc.plane_axis_1) - m1.arc.offset m1.arc.plane_axis_1 -
          m1.arc.position (ax m1.arc.plane_axis_1)) = some θe) :
    _compute_arc cfg m =
      (let travel := arc_angular_travel θ θe (m1.gm.motion_mode = .ccwArc)
       let radius := Real.sqrt ((m1.arc.offset m1.arc.plane_axis_0) ^ 2 +
                                (m1.arc.offset m1.arc.plane_axis_1) ^ 2)
       let lin := m1.arc.gm.target (ax m1.arc.plane_axis_2) - m1.arc.position (ax m1.arc.plane_axis_2)
       let len := Real.sqrt ((travel * radius) ^ 2 + |lin| ^ 2)
       let m3 := { m1 with arc := { m1.arc with
                                      theta := θ,
                                      angular_travel := travel,
                                      radius := radius,
                                      linear_travel := lin,
                                      length := len } }
       if len < cfg.arc_segment_len then (.minimumLengthMoveError, m3)
       else
         let time := _get_arc_time cfg m3 lin travel radius
         let seg_chordal := len / Real.sqrt (4 * cfg.chordal_tolerance *
                              (2 * radius - cfg.chordal_tolerance))
         let seg_distance := len / cfg.arc_segment_len
         let seg_time := time * cfg.microseconds_per_minute / cfg.min_arc_segment_usec
         let segments : ℝ := max (↑⌊min seg_chordal (min seg_distance seg_time)⌋ : ℝ) 1
         (.ok, { m3 with arc := { m3.arc with
                                    time := time,
                                    segments := segments,
                                    segment_count := ⌊segments⌋,
                                    segment_theta := travel / segments,
                                    segment_linear_travel := lin / segments,
                                    center_0 := m3.arc.position (ax m3.arc.plane_axis_0) - Real.sin θ * radius,
                                    center_1 := m3.arc.position (ax m3.arc.plane_axis_1) - Real.cos θ * radius,
                                    gm := { m3.arc.gm with
                                              move_time := time / segments,
                                              target := Function.update m3.arc.gm.target (ax m3.arc.plane_axis_2)
                                                          (m3.arc.position (ax m3.arc.plane_axis_2)) } } })) := by
  simp only [_compute_arc, hoff, hθ, hθe]

/-- The concrete half-circle command passes `_compute_arc` successfully. -/
theorem compute_arc_mPrep : ∃ m', _compute_arc cfg0 mPrep = (Stat.ok, m') := by
  have hA : ¬ ((π:ℝ)/2 < 0) := not_lt.mpr (by positivity)
  have hcw : (MotionMode.cwArc = MotionMode.ccwArc) = False := eq_false (by decide)
  have hf2 : (((⟨2, by omega⟩ : Fin 6)) = (0 : Fin 6)) = False := eq_false (by decide)
  have hπ0 : ((π:ℝ) = 0) = False := eq_false Real.pi_ne_zero
  have habs : |(π:ℝ)| = π := abs_of_pos Real.pi_pos
  have h1π : (1:ℝ) < π := by linarith [Real.pi_gt_three]
  have hπneg : ¬ ((π:ℝ) < 0) := not_lt.mpr Real.pi_nonneg
  have hsq : Real.sqrt (π ^ 2) = π := Real.sqrt_sq Real.pi_nonneg
  have h4 : Real.sqrt 4 = 2 := by
    rw [show (4:ℝ) = 2 ^ 2 by norm_num, Real.sqrt_sq (by norm_num : (0:ℝ) ≤ 2)]
  have hπ1 : ¬ ((π:ℝ) < 1) := not_lt.mpr (le_of_lt h1π)
  have hmin : (π:ℝ)/2 ⊓ π = π/2 := min_eq_left (by linarith [Real.pi_pos])
  have hfl : ⌊(π:ℝ)/2⌋ = 1 := by
    rw [Int.floor_eq_iff]
    constructor
    · push_cast
      linarith [Real.pi_gt_three]
    · push_cast
      linarith [Real.pi_lt_d2]
  rw [compute_arc_reduce cfg0 mPrep mPrep (-(π/2)) (π/2) hoffPrep hthPrep hthePrep]
  norm_num [mPrep, arcPrep, arc0, gmPrep, gm0, tgt0, offPrep, m0, cfg0, ax, _get_arc_time,
    arc_angular_travel, Real.sqrt_one, hA, hcw, hf2, hπ0, habs, h1π, hπneg, hsq, h4, hπ1,
    hmin, hfl, lt_self_iff_false]

/-- Feeding the concrete half-circle command succeeds and arms the
session. -/
theorem feed_eval : ∃ m', cm_arc_feed env0 cfg0 m0 tgt0 flags1 1 0 0 0 .cwArc = (Stat.ok, m') ∧
    m'.arc.run_state = .run := by
  obtain ⟨m5, h5⟩ := compute_arc_mPrep
  refine ⟨{ m5 with arc := { m5.arc with run_state := .run }, gmx_position := m5.gm.target }, ?_, rfl⟩
  rw [feed_entry_reduction]
  simp only [arc_feed_body, h5, env0]
  rfl

/-- C4 witness: the concrete half-circle command arms a session with at
least one segment. -/
theorem cm_arc_feed_segments_witness :
    (1:ℝ) ≤ (cm_arc_feed env0 cfg0 m0 tgt0 flags1 1 0 0 0 .cwArc).2.arc.segments := by
  obtain ⟨m', hm, hrun⟩ := feed_eval
  have h := cm_arc_feed_segments env0 cfg0 m0 tgt0 flags1 1 0 0 0 .cwArc m' hm rfl hrun
  rw [hm]
  exact h.2.2.2.2

/-- C6 witness: the concrete half-circle arc has length `π`, at or above the
unit minimum segment length, so the check passes and preparation
proceeds. -/
theorem compute_arc_length_check_witness :
    (_compute_arc cfg0 mPrep).1 = Stat.ok := by
  have hA : ¬ ((π:ℝ)/2 < 0) := not_lt.mpr (by positivity)
  have hcw : (MotionMode.cwArc = MotionMode.ccwArc) = False := eq_false (by decide)
  have hf2 : (((⟨2, by omega⟩ : Fin 6)) = (0 : Fin 6)) = False := eq_false (by decide)
  have hπ0 : ((π:ℝ) = 0) = False := eq_false Real.pi_ne_zero
  have hsq : Real.sqrt (π ^ 2) = π := Real.sqrt_sq Real.pi_nonneg
  have hπ1 : ¬ ((π:ℝ) < 1) := not_lt.mpr (by linarith [Real.pi_gt_three])
  have h := compute_arc_length_check cfg0 mPrep mPrep (-(π/2)) (π/2) hoffPrep hthPrep hthePrep
  apply h.2.2
  norm_num [mPrep, arcPrep, arc0, gmPrep, gm0, tgt0, offPrep, m0, cfg0, ax,
    arc_angular_travel, Real.sqrt_one, hA, hcw, hf2, hπ0, hsq, hπ1]

/-- C7 witness: the zero-feed-rate machine `mFeed0` is rejected with the
feed-rate error — one of the five prep errors — and its run state is exactly
what it was before the call. -/
theorem cm_arc_feed_error_not_armed_witness :
    mFeed0.arc.run_state = mFeed0.arc.run_state ∧
    (Stat.feedRateError = .feedRateError ∨ Stat.feedRateError = .arcSpecificationError ∨
     Stat.feedRateError = .floatingPointError ∨ Stat.feedRateError = .minimumLengthMoveError ∨
     Stat.feedRateError = .softLimitExceeded) :=
  cm_arc_feed_error_not_armed env0 cfg0 mFeed0 (fun _ => 0) (fun _ => 0) 0 0 0 0 .cwArc
    .feedRateError mFeed0 (fun _ => Or.inl rfl)
    (by unfold cm_arc_feed; rw [if_pos ⟨rfl, rfl⟩]) (by decide)
